import Mathlib

/-!
Verification of the armatures DXF-to-LIRA converter.

Python strings are embedded as lists of characters (`PyStr`), text streams as
lists of raw lines (each line keeps its trailing newline, as `readline` yields
it), and the process-global point registry / id sequences as an explicit
`Registry` value threaded through every operation.  Fallible Python code
(raising `TypeError` / `ValueError` / `AttributeError`) is embedded with
`Option`, `none` standing for an uncaught exception.
-/

namespace Armatures

/-- Python strings, embedded as their character lists. -/
abbrev PyStr := List Char

/-- Coerce a Lean string literal to the embedded representation. -/
def pys (s : String) : PyStr := s.data

/-- Characters Python's `str.strip()` removes (the whitespace used by the input). -/
def pyIsSpace (c : Char) : Bool := c = ' ' || c = '\n' || c = '\t' || c = '\r'

/-- Python `s.strip()`: drop whitespace from both ends. -/
def strip (s : PyStr) : PyStr :=
  ((s.dropWhile pyIsSpace).reverse.dropWhile pyIsSpace).reverse

/-- Python `s.split(sep)` for a single-character separator: split at every
occurrence, keeping empty pieces.  Always returns at least one piece. -/
def splitOnChar (sep : Char) : PyStr → List PyStr
  | [] => [[]]
  | c :: rest =>
    match splitOnChar sep rest with
    | [] => [[]]
    | h :: t => if c = sep then [] :: h :: t else (c :: h) :: t

/-- `src/dxf_parser.py` line 15: `FLOAT_TOLLERENCE = 3` (decimal digits kept). -/
def FLOAT_TOLLERENCE : Nat := 3

/-- `src/dxf_parser.py` lines 62-67: `strip_tollerence` splits on `"."`; when the
split has exactly two parts it keeps at most `FLOAT_TOLLERENCE` characters of
the fractional part, otherwise the string is returned unchanged. -/
def strip_tollerence (num : PyStr) : PyStr :=
  match splitOnChar '.' num with
  | [a, b] => a ++ '.' :: b.take FLOAT_TOLLERENCE
  | _ => num

/-- `src/dxf_parser.py` line 28: `Point` stores the raw coordinate strings plus
the assigned id (the `id=None` default is never observable after
`point_factory`, which always supplies an id). -/
structure Point where
  x : PyStr
  y : PyStr
  z : PyStr
  id : Int
deriving DecidableEq

/-- Association-list lookup, embedding Python `dict.get` (insertion order kept). -/
def alGet {κ β : Type} [DecidableEq κ] (k : κ) : List (κ × β) → Option β
  | [] => none
  | e :: rest => if e.1 = k then some e.2 else alGet k rest

/-- The process-global mutable state of `src/dxf_parser.py`: the `POINTS`
ordered dict and the `SEQUENCES` dict entries for the `points` and `layers`
counters.  `none` means the key is absent (the `_counter` generator writes the
start value only when first advanced). -/
structure Registry where
  points : List ((PyStr × PyStr × PyStr) × Point)
  seqPoints : Option Int
  seqLayers : Option Int
deriving DecidableEq

/-- Advancing `POINT_ID_SEQUENCE`: the generator sets the counter to 1 on its
first `next`, and on a later `next` increments whatever value the `SEQUENCES`
dict currently holds (external writes by `remove_invalid_layer` included),
then yields it. -/
def nextPointId (st : Registry) : Int × Registry :=
  match st.seqPoints with
  | none => (1, { st with seqPoints := some 1 })
  | some n => (n + 1, { st with seqPoints := some (n + 1) })

/-- Advancing `LAYER_ID_SEQUENCE`, same generator protocol. -/
def nextLayerId (st : Registry) : Int × Registry :=
  match st.seqLayers with
  | none => (1, { st with seqLayers := some 1 })
  | some n => (n + 1, { st with seqLayers := some (n + 1) })

/-- `src/dxf_parser.py` lines 70-82: `point_factory` keys the `POINTS` dict by
the tolerance-stripped coordinate triple; a hit returns the stored point
unchanged, a miss allocates the next id and stores a new point holding the raw
coordinate strings. -/
def point_factory (st : Registry) (x y z : PyStr) : Point × Registry :=
  let h := (strip_tollerence x, strip_tollerence y, strip_tollerence z)
  match alGet h st.points with
  | some p => (p, st)
  | none =>
    let (i, st1) := nextPointId st
    let p : Point := ⟨x, y, z, i⟩
    (p, { st1 with points := st1.points ++ [(h, p)] })

/-- A tag stream: the not-yet-consumed lines of the input file, each line
including its trailing newline when the file has one there. -/
abbrev TagStream := List PyStr

/-- Python `f.readline()`: the next line, or `""` at end of file. -/
def readline : TagStream → PyStr × TagStream
  | [] => ([], [])
  | l :: rest => (l, rest)

/-- `src/dxf_parser.py` lines 85-92: scan forward for a line equal to
`code + "\n"`; on a match return the next line stripped, at end of file return
the sentinel `"ENDOFFILE"`.  The `parser` argument is `str` at every call
site, so it is omitted. -/
def read_code_value (code : PyStr) : TagStream → PyStr × TagStream
  | [] => (pys "ENDOFFILE", [])
  | l :: rest =>
    if l = code ++ ['\n'] then
      let (v, rest2) := readline rest
      (strip v, rest2)
    else read_code_value code rest

/-- `src/dxf_parser.py` lines 95-96 / 99-106: `point_factory(*read_codes(f,
(c1, c2, c3)))` — the generator expression is forced in order by unpacking,
so the three codes are read sequentially and the results fed to the factory. -/
def readPointCodes (c1 c2 c3 : PyStr) (f : TagStream) (st : Registry) :
    Point × Registry × TagStream :=
  let (v1, f1) := read_code_value c1 f
  let (v2, f2) := read_code_value c2 f1
  let (v3, f3) := read_code_value c3 f2
  let (p, st1) := point_factory st v1 v2 v3
  (p, st1, f3)

/-- `src/dxf_parser.py` line 41: a `Line` is an ordered pair of points. -/
structure Line where
  a : Point
  b : Point
deriving DecidableEq

/-- `src/dxf_parser.py` line 42: `ThreeDFace` is a namedtuple with the single
field `points` (the field-name tuple `("points")` is just the string
`"points"`, so the namedtuple has exactly one field). -/
structure ThreeDFace where
  points : List Point
deriving DecidableEq

/-- `src/dxf_parser.py` line 43: `LwPolyLine` holds a collection of points
(a Python `set` in `parse_LWPOLYLINE`, embedded as a duplicate-free list). -/
structure LwPolyLine where
  points : List Point
deriving DecidableEq

/-- Worker for `unique_points`: the growing `ids` set is embedded as a list. -/
def uniqueAux (seen : List Int) : List Point → List Point
  | [] => []
  | p :: ps => if p.id ∈ seen then uniqueAux seen ps else p :: uniqueAux (p.id :: seen) ps

/-- `src/dxf_parser.py` lines 109-119: drop points whose `id` was already seen,
keeping the first occurrence of each id. -/
def unique_points (ps : List Point) : List Point := uniqueAux [] ps

/-- `src/dxf_parser.py` lines 99-102: a LINE reads triples 10/20/30 and
11/21/31. -/
def parse_LINE (f : TagStream) (st : Registry) : Line × Registry × TagStream :=
  let (a, st1, f1) := readPointCodes (pys " 10") (pys " 20") (pys " 30") f st
  let (b, st2, f2) := readPointCodes (pys " 11") (pys " 21") (pys " 31") f1 st1
  (⟨a, b⟩, st2, f2)

/-- `src/dxf_parser.py` lines 105-106: a POINT reads one triple 10/20/30. -/
def parse_POINT (f : TagStream) (st : Registry) : Point × Registry × TagStream :=
  readPointCodes (pys " 10") (pys " 20") (pys " 30") f st

/-- `src/dxf_parser.py` lines 122-127: a 3DFACE reads four triples in tag order
and stores `unique_points(a, b, d, c)`. -/
def parse_3DFACE (f : TagStream) (st : Registry) : ThreeDFace × Registry × TagStream :=
  let (a, st1, f1) := readPointCodes (pys " 10") (pys " 20") (pys " 30") f st
  let (b, st2, f2) := readPointCodes (pys " 11") (pys " 21") (pys " 31") f1 st1
  let (c, st3, f3) := readPointCodes (pys " 12") (pys " 22") (pys " 32") f2 st2
  let (d, st4, f4) := readPointCodes (pys " 13") (pys " 23") (pys " 33") f3 st3
  (⟨unique_points [a, b, d, c]⟩, st4, f4)

/-- A well-formed 3DFACE tag block: the twelve coordinate tags in the order
10/20/30, 11/21/31, 12/22/32, 13/23/33, each code line followed by its raw
value line. -/
def faceTagLines (v1 v2 v3 v4 v5 v6 v7 v8 v9 v10 v11 v12 : PyStr) : TagStream :=
  [pys " 10\n", v1, pys " 20\n", v2, pys " 30\n", v3,
   pys " 11\n", v4, pys " 21\n", v5, pys " 31\n", v6,
   pys " 12\n", v7, pys " 22\n", v8, pys " 32\n", v9,
   pys " 13\n", v10, pys " 23\n", v11, pys " 33\n", v12]

/-- A layer attribute: `parse_layer_name` returns floats for LINE/3DFACE layers
and lowercase DOF strings for POINT layers.  Python floats are embedded as
rationals; every float value a claim mentions (integers, integer/100) is
exactly representable, so no rounding behaviour is lost. -/
inductive Attr where
  | num (q : ℚ)
  | str (s : PyStr)
deriving DecidableEq

/-- `src/dxf_parser.py` lines 32-38: a `Layer` aggregate.  The last field is
spelled `lwpolines` in the source (while `ENTITY_MAPS` says `lwpolylines`). -/
structure Layer where
  name : PyStr
  id : Int
  type : PyStr
  attrs : List Attr
  lines : List Line
  faces : List ThreeDFace
  points : List Point
  lwpolines : List LwPolyLine
deriving DecidableEq

/-- Python `dict.pop(k, None)`: the removed value (if any) and the remaining
entries in order. -/
def alPop {κ β : Type} [DecidableEq κ] (k : κ) : List (κ × β) → Option β × List (κ × β)
  | [] => (none, [])
  | e :: rest =>
    if e.1 = k then (some e.2, rest)
    else
      let (r, rest2) := alPop k rest
      (r, e :: rest2)

/-- Iterating a `ThreeDFace` namedtuple yields its field values: the single
field `points`.  This is what `itertools.chain.from_iterable(layer.faces)`
iterates over in `remove_invalid_layer`. -/
def namedtupleFields (fc : ThreeDFace) : List (List Point) := [fc.points]

/-- `src/dxf_parser.py` lines 168-179: pop the layer; when the `points`
counter exists and is non-zero, subtract `len(lines) * 2`, `len(points)`, and
`len(list(chain.from_iterable(layer.faces)))` — the last being the number of
faces, because each one-field `ThreeDFace` namedtuple iterates to its single
`points` tuple. -/
def remove_invalid_layer (layer_name : PyStr) (layers : List (PyStr × Layer))
    (seqPoints : Option Int) : List (PyStr × Layer) × Option Int :=
  match alPop layer_name layers with
  | (none, ls) => (ls, seqPoints)
  | (some layer, ls) =>
    match seqPoints with
    | none => (ls, seqPoints)
    | some n =>
      if n = 0 then (ls, seqPoints)
      else
        let n1 := n - (layer.lines.length : Int) * 2
        let n2 := n1 - (layer.points.length : Int)
        let n3 := n2 - (((layer.faces.map namedtupleFields).flatten).length : Int)
        (ls, some n3)

/-- Numeric value of a decimal digit character. -/
def digitVal (c : Char) : Nat := c.toNat - '0'.toNat

/-- The natural number denoted by a string of decimal digits. -/
def natOfDigits (ds : PyStr) : Nat := ds.foldl (fun n c => 10 * n + digitVal c) 0

/-- Python `int(s)`: strips whitespace, accepts an optional sign followed by
digits, raises `ValueError` (`none`) otherwise. -/
def pyInt (s : PyStr) : Option Int :=
  match strip s with
  | [] => none
  | '-' :: ds =>
    if ds ≠ [] ∧ ds.all Char.isDigit then some (-(natOfDigits ds : Int)) else none
  | '+' :: ds =>
    if ds ≠ [] ∧ ds.all Char.isDigit then some ((natOfDigits ds : Int)) else none
  | ds => if ds.all Char.isDigit then some ((natOfDigits ds : Int)) else none

/-- The vertex loop of `src/dxf_parser.py` lines 134-146 (`for _ in
range(int(n_verticies))`).  An empty readline (end of file) or a line equal to
`"  0"` (note: no trailing newline, so only an unterminated final line can
match) breaks out.  Otherwise the loop runs
`points.add(Point(point_factory(x, y, z)))`: `Point(...)` is called with a
`Point` as its only positional argument, leaving `y` and `z` unfilled — a
`TypeError`, embedded as `none`. -/
def lwLoop : Nat → TagStream → Registry → List Point →
    Option (LwPolyLine × Registry × TagStream)
  | 0, f, st, acc => some (⟨acc⟩, st, f)
  | Nat.succ _, f, st, acc =>
    let (line, f1) := readline f
    if line = [] then some (⟨acc⟩, st, f)
    else if line = pys "  0" then some (⟨acc⟩, st, f1)
    else
      let x := strip line
      let (y, _f2) := read_code_value (pys " 20") f1
      let (_p, _st1) := point_factory st x y (pys "0.00")
      none

/-- `src/dxf_parser.py` lines 130-148: read the vertex count under code 90
(`int` of the sentinel or a malformed count raises `ValueError`), then run the
vertex loop. -/
def parse_LWPOLYLINE (f : TagStream) (st : Registry) :
    Option (LwPolyLine × Registry × TagStream) :=
  let (nv, f1) := read_code_value (pys " 90") f
  match pyInt nv with
  | none => none
  | some n => lwLoop n.toNat f1 st []

/-- Python `str.lower()`, applied per character. -/
def pyLower (s : PyStr) : PyStr := s.map Char.toLower

/-- Python `s.startswith(p)` on the embedded strings. -/
def leadsWith : PyStr → PyStr → Bool
  | [], _ => true
  | _ :: _, [] => false
  | p :: ps, c :: cs => if p = c then leadsWith ps cs else false

/-- The first occurrence of `sep` in a string: the text before it and the text
after it, or `none` when `sep` never occurs. -/
def splitFirst (sep : PyStr) : PyStr → Option (PyStr × PyStr)
  | [] => none
  | c :: rest =>
    if leadsWith sep (c :: rest) then some ([], (c :: rest).drop sep.length)
    else
      match splitFirst sep rest with
      | some (b, a) => some (c :: b, a)
      | none => none

/-- Fuel-driven repeated splitting; for a non-empty separator every found
occurrence consumes at least one character, so fuel `s.length + 1` never runs
out. -/
def splitOnSubFuel (sep : PyStr) : Nat → PyStr → List PyStr
  | 0, s => [s]
  | Nat.succ fuel, s =>
    match splitFirst sep s with
    | none => [s]
    | some (b, a) => b :: splitOnSubFuel sep fuel a

/-- Python `s.split(sep)` for a non-empty separator string: every
non-overlapping occurrence splits, empty pieces kept. -/
def splitOnSub (sep s : PyStr) : List PyStr := splitOnSubFuel sep (s.length + 1) s

/-- Spec-side notion: does `sub` occur as a contiguous substring of `s`? -/
def containsSub (sub : PyStr) : PyStr → Bool
  | [] => sub.isEmpty
  | c :: rest => leadsWith sub (c :: rest) || containsSub sub rest

/-- `src/dxf_parser.py` line 165: the accepted degree-of-freedom tokens. -/
def DOF_VALUES : List PyStr :=
  [pys "x", pys "y", pys "z", pys "fx", pys "fy", pys "fz"]

/-- `src/dxf_parser.py` lines 18-25: the `DOF_MAP` dict; it is only ever
applied to members of `DOF_VALUES` (the 0 default is unreachable). -/
def DOF_MAP (d : PyStr) : Nat :=
  if d = pys "x" then 1
  else if d = pys "y" then 2
  else if d = pys "z" then 3
  else if d = pys "fx" then 4
  else if d = pys "fy" then 5
  else if d = pys "fz" then 6
  else 0

/-- The decimal digit character for `n < 10`. -/
def digitChar (n : Nat) : Char := Char.ofNat ('0'.toNat + n)

/-- Python `str(DOF_MAP[d])`: the codes are the single digits 1..6. -/
def dofCodeStr (d : PyStr) : PyStr := [digitChar (DOF_MAP d)]

/-- Python string `<=`: lexicographic comparison by code point. -/
def pyStrLe : PyStr → PyStr → Bool
  | [], _ => true
  | _ :: _, [] => false
  | a :: as', b :: bs' => if a = b then pyStrLe as' bs' else decide (a < b)

/-- The check `all(l[i] <= l[i+1] for i in range(len(l) - 1))` of line 218. -/
def allAdjacentLe : List PyStr → Bool
  | [] => true
  | [_] => true
  | a :: b :: rest => pyStrLe a b && allAdjacentLe (b :: rest)

/-- Fuel-driven worker for `re.findall(r"<letter>\d+", s)`: at each position a
match is the letter followed by its maximal run of at least one digit, and
scanning resumes after the match (matches never overlap).  Each step consumes
at least one character, so fuel `s.length` suffices. -/
def findAllFuel (letter : Char) : Nat → PyStr → List PyStr
  | 0, _ => []
  | _, [] => []
  | Nat.succ fuel, c :: rest =>
    let ds := rest.takeWhile Char.isDigit
    if c = letter ∧ ds ≠ [] then
      (c :: ds) :: findAllFuel letter fuel (rest.drop ds.length)
    else findAllFuel letter fuel rest

/-- `re.findall(r"B\d+", s)` and `re.findall(r"H\d+", s)` of lines 183-184. -/
def findAllLN (letter : Char) (s : PyStr) : List PyStr := findAllFuel letter s.length s

/-- Spec-side notion: `s` contains the letter immediately followed by at least
one digit, i.e. the regex `<letter>\d+` matches somewhere in `s`. -/
def hasLN (letter : Char) : PyStr → Bool
  | [] => false
  | c :: rest =>
    if c = letter ∧ rest.takeWhile Char.isDigit ≠ [] then true else hasLN letter rest

/-- Spec-side notion: the text of the first `<letter>\d+` match in `s`. -/
def firstLN (letter : Char) : PyStr → Option PyStr
  | [] => none
  | c :: rest =>
    let ds := rest.takeWhile Char.isDigit
    if c = letter ∧ ds ≠ [] then some (c :: ds) else firstLN letter rest

/-- `src/dxf_parser.py` lines 182-225: derive the attribute list from a layer
name.  LINE wants a `B\d+` and an `H\d+` match (floats of the first matches);
3DFACE wants `H\d+` (float / 100); POINT splits on the `"DOF "` marker, takes
the text between the first marker and the next (if any), lowercases it, keeps
the space-separated tokens found in `DOF_VALUES`, and requires their digit
codes to be non-decreasing as Python strings.  Invalid names yield `[]`; any
other entity type falls off the end of the function — Python `None`. -/
def parse_layer_name (entity_type : PyStr) (layer_name : PyStr) : Option (List Attr) :=
  if entity_type = pys "LINE" then
    match findAllLN 'B' layer_name, findAllLN 'H' layer_name with
    | b0 :: _, h0 :: _ =>
      some [Attr.num (natOfDigits (b0.drop 1) : ℚ),
            Attr.num (natOfDigits (h0.drop 1) : ℚ)]
    | _, _ => some []
  else if entity_type = pys "3DFACE" then
    match findAllLN 'H' layer_name with
    | h0 :: _ => some [Attr.num ((natOfDigits (h0.drop 1) : ℚ) / 100)]
    | _ => some []
  else if entity_type = pys "POINT" then
    match splitOnSub (pys "DOF ") layer_name with
    | _ :: seg :: _ =>
      let dofs := ((splitOnChar ' ' (pyLower seg)).map strip).filter
        (fun d => decide (d ∈ DOF_VALUES))
      let lira_dofs := dofs.map dofCodeStr
      if allAdjacentLe lira_dofs then some (dofs.map Attr.str) else some []
    | _ => some []
  else none

/-- The in-set DOF tokens `parse_layer_name` extracts from a POINT layer name
(the `dofs` list of lines 215-216); `[]` when the marker is absent. -/
def pointToks (layer_name : PyStr) : List PyStr :=
  match splitOnSub (pys "DOF ") layer_name with
  | _ :: seg :: _ =>
    ((splitOnChar ' ' (pyLower seg)).map strip).filter
      (fun d => decide (d ∈ DOF_VALUES))
  | _ => []

/-- Non-decreasing `DOF_MAP` codes, the spec's numeric ordering requirement. -/
def nonDecCodes : List PyStr → Bool
  | [] => true
  | [_] => true
  | a :: b :: rest => decide (DOF_MAP a ≤ DOF_MAP b) && nonDecCodes (b :: rest)

/-- Modelled from claim C6's words: a POINT layer name is accepted exactly when
it contains the marker `"DOF "` followed by space-separated tokens drawn from
`DOF_VALUES` (case-insensitive) whose mapped numeric codes are non-decreasing. -/
def claimC6Accepts (layer_name : PyStr) : Bool :=
  match splitOnSub (pys "DOF ") layer_name with
  | _ :: seg :: _ =>
    let toks := ((splitOnChar ' ' (pyLower seg)).map strip).filter
      (fun d => !d.isEmpty)
    toks.all (fun t => decide (t ∈ DOF_VALUES)) && nonDecCodes toks
  | _ => false

/-- Python `" ".join(ts)` (single-character separator). -/
def joinChar (sep : Char) : List PyStr → PyStr
  | [] => []
  | [t] => t
  | t :: u :: rest => t ++ sep :: joinChar sep (u :: rest)

/-- `src/dxf_parser.py` line 16: the entity-type group code. -/
def ENTITY_TYPE : PyStr := pys "  0"

/-- Python `str.isnumeric()` restricted to ASCII digits (the only characters a
group-code value line contains): nonempty and all digits. -/
def pyIsNumeric (s : PyStr) : Bool := !s.isEmpty && s.all Char.isDigit

/-- The keys of `ENTITY_PARSERS` (`src/dxf_parser.py` lines 151-156). -/
def hasEntityDecoder (ty : PyStr) : Bool :=
  decide (ty = pys "POINT") || decide (ty = pys "LINE")
    || decide (ty = pys "3DFACE") || decide (ty = pys "LWPOLYLINE")

/-- A decoded entity, tagged by the decoder that produced it. -/
inductive Entity where
  | pt (p : Point)
  | ln (l : Line)
  | face (f : ThreeDFace)
  | lw (l : LwPolyLine)
deriving DecidableEq

/-- Dispatch through `ENTITY_PARSERS[entity_type]`; `parse_LWPOLYLINE` may
raise (see its definition), the others are total. -/
def runEntityDecoder (ty : PyStr) (f : TagStream) (st : Registry) :
    Option (Entity × Registry × TagStream) :=
  if ty = pys "POINT" then
    let (p, st1, f1) := parse_POINT f st
    some (.pt p, st1, f1)
  else if ty = pys "LINE" then
    let (l, st1, f1) := parse_LINE f st
    some (.ln l, st1, f1)
  else if ty = pys "3DFACE" then
    let (fc, st1, f1) := parse_3DFACE f st
    some (.face fc, st1, f1)
  else if ty = pys "LWPOLYLINE" then
    (parse_LWPOLYLINE f st).map (fun r => (.lw r.1, r.2.1, r.2.2))
  else none

/-- `getattr(layer, ENTITY_MAPS[entity_type]).append(entity)` (line 272).  For
LWPOLYLINE, `ENTITY_MAPS` names the non-existent field `lwpolylines` (the
`Layer` field is spelled `lwpolines`), so `getattr` would raise
`AttributeError`; the path is unreachable because no LWPOLYLINE layer is ever
created. -/
def appendEntity (L : Layer) : Entity → Option Layer
  | .pt p => some { L with points := L.points ++ [p] }
  | .ln l => some { L with lines := L.lines ++ [l] }
  | .face fc => some { L with faces := L.faces ++ [fc] }
  | .lw _ => none

/-- Python `dict[k] = v`, keeping insertion order. -/
def alSet {κ β : Type} [DecidableEq κ] (k : κ) (v : β) : List (κ × β) → List (κ × β)
  | [] => [(k, v)]
  | e :: rest => if e.1 = k then (k, v) :: rest else e :: alSet k v rest

/-- The `while True` loop of `parse_entities` (`src/dxf_parser.py` lines
228-274), fuel-driven: every non-breaking iteration consumes at least one
stream line, so fuel `|f| + 1` is never exhausted (exhaustion is embedded as
`none`). -/
def parse_entities_loop : Nat → TagStream → Registry → List (PyStr × Layer) →
    Option (List (PyStr × Layer) × Registry × TagStream)
  | 0, _, _, _ => none
  | Nat.succ fuel, f, st, layers =>
    let (ty, f1) := read_code_value ENTITY_TYPE f
    if ty = pys "ENDSEC" ∨ ty = pys "ENDOFFILE" then some (layers, st, f1)
    else if pyIsNumeric ty then parse_entities_loop fuel f1 st layers
    else if hasEntityDecoder ty = false then parse_entities_loop fuel f1 st layers
    else
      let (lname, f2) := read_code_value (pys "  8") f1
      match alGet lname layers with
      | some L =>
        if L.type ≠ ty then
          let (ls2, sq2) := remove_invalid_layer lname layers st.seqPoints
          parse_entities_loop fuel f2 { st with seqPoints := sq2 } ls2
        else
          match runEntityDecoder ty f2 st with
          | none => none
          | some (e, st2, f3) =>
            match appendEntity L e with
            | none => none
            | some L2 => parse_entities_loop fuel f3 st2 (alSet lname L2 layers)
      | none =>
        match parse_layer_name ty lname with
        | none => parse_entities_loop fuel f2 st layers
        | some [] => parse_entities_loop fuel f2 st layers
        | some attrs =>
          let (lid, st1) := nextLayerId st
          let L : Layer := ⟨lname, lid, ty, attrs, [], [], [], []⟩
          match runEntityDecoder ty f2 st1 with
          | none => none
          | some (e, st2, f3) =>
            match appendEntity L e with
            | none => none
            | some L2 => parse_entities_loop fuel f3 st2 (layers ++ [(lname, L2)])

/-- `src/dxf_parser.py` lines 228-274: run the entity loop and return
`list(layers.values())` together with the final global state. -/
def parse_entities (f : TagStream) (st : Registry) : Option (List Layer × Registry) :=
  (parse_entities_loop (f.length + 1) f st []).map
    (fun r => (r.1.map (fun e => e.2), r.2.1))

/-- Kernel-computable decimal digits of a natural number (fuel-driven). -/
def natToDigitsFuel : Nat → Nat → PyStr → PyStr
  | 0, _, acc => acc
  | Nat.succ fuel, n, acc =>
    let d := digitChar (n % 10)
    if n / 10 = 0 then d :: acc else natToDigitsFuel fuel (n / 10) (d :: acc)

/-- Python `str(i)` for the integer ids the exporter writes. -/
def intToStr : Int → PyStr
  | .ofNat n => natToDigitsFuel (n + 1) n []
  | .negSucc m => '-' :: natToDigitsFuel (m + 2) (m + 1) []

/-- `src/lira_exporter.py` line 35: the record for one `Line`,
`f'5 {layer.id} {line.a.id} {line.b.id}/\n'`. -/
def lineRecord (layerId : Int) (l : Line) : PyStr :=
  pys "5 " ++ intToStr layerId ++ pys " " ++ intToStr l.a.id ++ pys " "
    ++ intToStr l.b.id ++ pys "/\n"

/-- `src/lira_exporter.py` lines 37-43: the record for one `Face`: tag 42 for
exactly three stored points, 44 otherwise, then the point ids in stored
order, space-joined. -/
def faceRecord (layerId : Int) (fc : ThreeDFace) : PyStr :=
  let p_ids := joinChar ' ' (fc.points.map (fun p => intToStr p.id))
  if fc.points.length = 3 then
    pys "42 " ++ intToStr layerId ++ pys " " ++ p_ids ++ pys "/\n"
  else
    pys "44 " ++ intToStr layerId ++ pys " " ++ p_ids ++ pys "/\n"

/-- The ENTITIES block (section 1) of `_write_to_lira_file`
(`src/lira_exporter.py` lines 32-45): for each layer in order, its line
records then its face records. -/
def entitiesSection (layers : List Layer) : List PyStr :=
  (layers.map (fun L =>
    L.lines.map (lineRecord L.id) ++ L.faces.map (faceRecord L.id))).flatten

/-- A quadrilateral 3DFACE whose four corners are distinct canonical points. -/
def quadFace : ThreeDFace :=
  ⟨[⟨pys "0", pys "0", pys "0", 1⟩, ⟨pys "1", pys "0", pys "0", 2⟩,
    ⟨pys "1", pys "1", pys "0", 3⟩, ⟨pys "0", pys "1", pys "0", 4⟩]⟩

/-- A 3DFACE layer holding `quadFace` and nothing else. -/
def quadFaceLayer : Layer :=
  ⟨pys "Slab H20", 1, pys "3DFACE", [Attr.num (1 / 5 : ℚ)], [], [quadFace], [], []⟩

/-- A line between canonical points 1 and 2. -/
def exLine : Line := ⟨⟨pys "0", pys "0", pys "0", 1⟩, ⟨pys "1", pys "0", pys "0", 2⟩⟩

/-- A triangular face (3 stored points). -/
def exTri : ThreeDFace :=
  ⟨[⟨pys "0", pys "0", pys "0", 1⟩, ⟨pys "1", pys "0", pys "0", 2⟩,
    ⟨pys "0", pys "1", pys "0", 3⟩]⟩

/-- A quadrilateral face (4 stored points). -/
def exQuad : ThreeDFace :=
  ⟨[⟨pys "0", pys "0", pys "0", 1⟩, ⟨pys "1", pys "0", pys "0", 2⟩,
    ⟨pys "1", pys "1", pys "0", 4⟩, ⟨pys "0", pys "1", pys "0", 3⟩]⟩

/-- A layer with id 7 holding one line and two faces, as exporter input. -/
def exLayer : Layer :=
  ⟨pys "Mix B1 H2", 7, pys "LINE", [], [exLine], [exTri, exQuad], [], []⟩

end Armatures

namespace Armatures

/-- Helper: appending a fresh binding is found by `alGet` when the key was absent. -/
theorem alGet_append_self {κ β : Type} [DecidableEq κ] (k : κ) (v : β)
    (l : List (κ × β)) (h : alGet k l = none) : alGet k (l ++ [(k, v)]) = some v := by
  induction l with
  | nil => simp [alGet]
  | cons e rest ih =>
    simp only [alGet] at h ⊢
    by_cases he : e.1 = k
    · simp [he] at h
    · simp only [he, if_false] at h ⊢
      exact ih h

/-- Claim C1: for every two coordinate triples of strings whose 3-decimal
tolerance-stripped representations are equal, `point_factory` returns the
identical stored `Point` (same id and same stored coordinate strings), the
first inserted triple winning; and the stripping is string-level slicing,
`strip_tollerence "1.2399" = "1.239"`, never numeric rounding to `"1.240"`. -/
theorem point_factory_dedup_first_wins
    (st st1 : Registry) (x y z x' y' z' : PyStr) (p : Point)
    (hkey : (strip_tollerence x, strip_tollerence y, strip_tollerence z)
          = (strip_tollerence x', strip_tollerence y', strip_tollerence z'))
    (h1 : point_factory st x y z = (p, st1)) :
    point_factory st1 x' y' z' = (p, st1)
    ∧ (alGet (strip_tollerence x, strip_tollerence y, strip_tollerence z) st.points = none
        → p.x = x ∧ p.y = y ∧ p.z = z)
    ∧ strip_tollerence (pys "1.2399") = pys "1.239"
    ∧ strip_tollerence (pys "1.2399") ≠ pys "1.240" := by
  have coords : alGet (strip_tollerence x, strip_tollerence y, strip_tollerence z)
      st.points = none → p.x = x ∧ p.y = y ∧ p.z = z := by
    intro hnone
    unfold point_factory at h1
    simp only [hnone] at h1
    cases hnext : nextPointId st with
    | mk i st2 =>
      simp only [hnext] at h1
      obtain ⟨hp, _⟩ := Prod.mk.injEq .. ▸ h1
      rw [← hp]
      exact ⟨rfl, rfl, rfl⟩
  refine ⟨?_, coords, by decide, by decide⟩
  · unfold point_factory at h1 ⊢
    rw [← hkey]
    cases hget : alGet (strip_tollerence x, strip_tollerence y, strip_tollerence z) st.points with
    | some q =>
      simp only [hget] at h1
      obtain ⟨rfl, rfl⟩ := Prod.mk.injEq .. ▸ h1
      simp [hget]
    | none =>
      simp only [hget] at h1
      cases hnext : nextPointId st with
      | mk i st2 =>
        simp only [hnext] at h1
        obtain ⟨hp, hst⟩ := Prod.mk.injEq .. ▸ h1
        subst hst
        have hpts : alGet (strip_tollerence x, strip_tollerence y, strip_tollerence z)
            ({ st2 with points := st2.points ++
              [((strip_tollerence x, strip_tollerence y, strip_tollerence z),
                ⟨x, y, z, i⟩)] } : Registry).points = some ⟨x, y, z, i⟩ := by
          have hst2 : alGet (strip_tollerence x, strip_tollerence y, strip_tollerence z)
              st2.points = none := by
            unfold nextPointId at hnext
            cases hsp : st.seqPoints with
            | none => simp [hsp] at hnext; rw [← hnext.2]; exact hget
            | some n => simp [hsp] at hnext; rw [← hnext.2]; exact hget
          exact alGet_append_self _ _ _ hst2
        simp only [hpts, ← hp]

/-- Witness for C1 at a concrete registry and triples differing past the third
fractional digit. -/
theorem point_factory_dedup_first_wins_witness :
    point_factory ⟨[], none, none⟩ (pys "1.2399") (pys "2") (pys "3")
      = (⟨pys "1.2399", pys "2", pys "3", 1⟩,
         ⟨[((pys "1.239", pys "2", pys "3"), ⟨pys "1.2399", pys "2", pys "3", 1⟩)],
          some 1, none⟩)
    ∧ point_factory
        ⟨[((pys "1.239", pys "2", pys "3"), ⟨pys "1.2399", pys "2", pys "3", 1⟩)],
         some 1, none⟩ (pys "1.2391") (pys "2") (pys "3")
      = (⟨pys "1.2399", pys "2", pys "3", 1⟩,
         ⟨[((pys "1.239", pys "2", pys "3"), ⟨pys "1.2399", pys "2", pys "3", 1⟩)],
          some 1, none⟩) := by
  constructor
  · decide
  · exact (point_factory_dedup_first_wins ⟨[], none, none⟩ _
      (pys "1.2399") (pys "2") (pys "3") (pys "1.2391") (pys "2") (pys "3") _
      (by decide) (by decide)).1

/-- Claim C9: `read_code_value` returns the line following the first line equal
to the requested code (plus newline), stripped of surrounding whitespace, and
returns the sentinel `"ENDOFFILE"` — never raising — when the stream is
exhausted before a matching code line is found. -/
theorem read_code_value_first_match_or_sentinel (code : PyStr) :
    (∀ pre post, (code ++ ['\n']) ∉ pre →
      read_code_value code (pre ++ (code ++ ['\n']) :: post)
        = (strip (post.headD []), post.drop 1))
    ∧ (∀ s : TagStream, (code ++ ['\n']) ∉ s →
      read_code_value code s = (pys "ENDOFFILE", [])) := by
  constructor
  · intro pre post hpre
    induction pre with
    | nil =>
      cases post with
      | nil => simp [read_code_value, readline]
      | cons h t => simp [read_code_value, readline]
    | cons l pre' ih =>
      have hl : l ≠ code ++ ['\n'] := fun h => hpre (h ▸ List.mem_cons_self l pre')
      have hpre' : (code ++ ['\n']) ∉ pre' := fun h => hpre (List.mem_cons_of_mem l h)
      simpa [read_code_value, hl] using ih hpre'
  · intro s hs
    induction s with
    | nil => rfl
    | cons l rest ih =>
      have hl : l ≠ code ++ ['\n'] := fun h => hs (h ▸ List.mem_cons_self l rest)
      have hrest : (code ++ ['\n']) ∉ rest := fun h => hs (List.mem_cons_of_mem l h)
      simpa [read_code_value, hl] using ih hrest

/-- Witness for C9: a match after one skipped line, and the sentinel on a
stream with no match. -/
theorem read_code_value_first_match_or_sentinel_witness :
    read_code_value (pys " 10") [pys "junk\n", pys " 10\n", pys " 1.5 \n", pys "next\n"]
      = (pys "1.5", [pys "next\n"])
    ∧ read_code_value (pys " 10") [pys "zzz\n"] = (pys "ENDOFFILE", []) := by
  constructor
  · have h := (read_code_value_first_match_or_sentinel (pys " 10")).1
      [pys "junk\n"] [pys " 1.5 \n", pys "next\n"] (by decide)
    have e : [pys "junk\n", pys " 10\n", pys " 1.5 \n", pys "next\n"]
        = [pys "junk\n"] ++ (pys " 10" ++ ['\n']) :: [pys " 1.5 \n", pys "next\n"] := by decide
    rw [e, h]
    decide
  · exact (read_code_value_first_match_or_sentinel (pys " 10")).2 [pys "zzz\n"] (by decide)

/-- Helper: a matching code line at the head of the stream yields the stripped
value line and consumes both. -/
theorem read_code_value_head (code v : PyStr) (rest : TagStream) :
    read_code_value code ((code ++ ['\n']) :: v :: rest) = (strip v, rest) := by
  simp [read_code_value, readline]

/-- Helper: the length of `uniqueAux seen l` counts the ids of `l` outside
`seen`. -/
theorem uniqueAux_length (l : List Point) : ∀ seen : List Int,
    (uniqueAux seen l).length
      = ((l.map Point.id).toFinset \ seen.toFinset).card := by
  induction l with
  | nil => intro seen; simp [uniqueAux]
  | cons p rest ih =>
    intro seen
    by_cases hmem : p.id ∈ seen
    · have hset : insert p.id ((rest.map Point.id).toFinset) \ seen.toFinset
          = (rest.map Point.id).toFinset \ seen.toFinset := by
        ext q
        simp only [Finset.mem_sdiff, Finset.mem_insert, List.mem_toFinset]
        constructor
        · rintro ⟨rfl | hq, hns⟩
          · exact absurd hmem hns
          · exact ⟨hq, hns⟩
        · rintro ⟨hq, hns⟩
          exact ⟨Or.inr hq, hns⟩
      simp [uniqueAux, hmem, ih seen, hset]
    · have hsplit : (rest.map Point.id).toFinset \ insert p.id seen.toFinset
          = ((rest.map Point.id).toFinset \ seen.toFinset).erase p.id := by
        ext q
        simp only [Finset.mem_sdiff, Finset.mem_erase, List.mem_toFinset,
          Finset.mem_insert]
        tauto
      have hins : insert p.id ((rest.map Point.id).toFinset) \ seen.toFinset
          = insert p.id ((rest.map Point.id).toFinset \ seen.toFinset) := by
        ext q
        simp only [Finset.mem_sdiff, Finset.mem_insert, List.mem_toFinset]
        constructor
        · rintro ⟨rfl | hq, hns⟩
          · exact Or.inl rfl
          · exact Or.inr ⟨hq, hns⟩
        · rintro (rfl | ⟨hq, hns⟩)
          · exact ⟨Or.inl rfl, hmem⟩
          · exact ⟨Or.inr hq, hns⟩
      have hcard : ∀ (T : Finset Int) (a : Int),
          (insert a T).card = 1 + (T.erase a).card := by
        intro T a
        by_cases ha : a ∈ T
        · rw [Finset.insert_eq_self.2 ha, Finset.card_erase_of_mem ha]
          have : 0 < T.card := Finset.card_pos.2 ⟨a, ha⟩
          omega
        · rw [Finset.card_insert_of_not_mem ha, Finset.erase_eq_of_not_mem ha]
          omega
      simp only [uniqueAux, if_neg hmem, List.length_cons, List.map_cons,
        List.toFinset_cons, ih (p.id :: seen), hsplit, hins, hcard]
      omega

/-- Helper: `unique_points` keeps one point per distinct id. -/
theorem unique_points_length (l : List Point) :
    (unique_points l).length = (l.map Point.id).toFinset.card := by
  simpa [unique_points] using uniqueAux_length l []

/-- Claim C5: on a 3DFACE tag block whose four triples decode in tag order to
canonical points `a, b, c, d`, the stored face point sequence is
`unique_points [a, b, d, c]`: the `(a, b, d, c)` reorder with duplicate ids
removed, the first occurrence kept; with exactly three distinct ids the face
stores exactly 3 points, and in the repeated-corner case `c = a` (others
distinct) it stores `[a, b, d]`. -/
theorem parse_3DFACE_reorders_and_dedups
    (st sta stb stc std : Registry) (v1 v2 v3 v4 v5 v6 v7 v8 v9 v10 v11 v12 : PyStr)
    (a b c d : Point)
    (h1 : point_factory st (strip v1) (strip v2) (strip v3) = (a, sta))
    (h2 : point_factory sta (strip v4) (strip v5) (strip v6) = (b, stb))
    (h3 : point_factory stb (strip v7) (strip v8) (strip v9) = (c, stc))
    (h4 : point_factory stc (strip v10) (strip v11) (strip v12) = (d, std)) :
    parse_3DFACE (faceTagLines v1 v2 v3 v4 v5 v6 v7 v8 v9 v10 v11 v12) st
      = (⟨unique_points [a, b, d, c]⟩, std, [])
    ∧ (([a, b, d, c].map Point.id).toFinset.card = 3
        → (unique_points [a, b, d, c]).length = 3)
    ∧ (c.id = a.id → b.id ≠ a.id → d.id ≠ a.id → d.id ≠ b.id
        → unique_points [a, b, d, c] = [a, b, d]) := by
  refine ⟨?_, ?_, ?_⟩
  · have hs : faceTagLines v1 v2 v3 v4 v5 v6 v7 v8 v9 v10 v11 v12
        = (pys " 10" ++ ['\n']) :: v1 :: (pys " 20" ++ ['\n']) :: v2 ::
          (pys " 30" ++ ['\n']) :: v3 :: (pys " 11" ++ ['\n']) :: v4 ::
          (pys " 21" ++ ['\n']) :: v5 :: (pys " 31" ++ ['\n']) :: v6 ::
          (pys " 12" ++ ['\n']) :: v7 :: (pys " 22" ++ ['\n']) :: v8 ::
          (pys " 32" ++ ['\n']) :: v9 :: (pys " 13" ++ ['\n']) :: v10 ::
          (pys " 23" ++ ['\n']) :: v11 :: (pys " 33" ++ ['\n']) :: v12 :: [] := rfl
    rw [hs]
    simp only [parse_3DFACE, readPointCodes, read_code_value_head, h1, h2, h3, h4]
  · intro hcard
    rw [unique_points_length, hcard]
  · intro hc hb hd hdb
    simp [unique_points, uniqueAux, hc, hb, hd, hdb]

/-- Witness for C5: a concrete face whose third corner repeats the first. -/
theorem parse_3DFACE_reorders_and_dedups_witness :
    parse_3DFACE (faceTagLines (pys "0\n") (pys "0\n") (pys "0\n")
        (pys "1\n") (pys "0\n") (pys "0\n") (pys "0\n") (pys "0\n") (pys "0\n")
        (pys "2\n") (pys "0\n") (pys "0\n")) ⟨[], none, none⟩
      = (⟨[⟨pys "0", pys "0", pys "0", 1⟩, ⟨pys "1", pys "0", pys "0", 2⟩,
           ⟨pys "2", pys "0", pys "0", 3⟩]⟩,
         ⟨[((pys "0", pys "0", pys "0"), ⟨pys "0", pys "0", pys "0", 1⟩),
           ((pys "1", pys "0", pys "0"), ⟨pys "1", pys "0", pys "0", 2⟩),
           ((pys "2", pys "0", pys "0"), ⟨pys "2", pys "0", pys "0", 3⟩)],
          some 3, none⟩, []) := by
  have h := (parse_3DFACE_reorders_and_dedups ⟨[], none, none⟩
    ⟨[((pys "0", pys "0", pys "0"), ⟨pys "0", pys "0", pys "0", 1⟩)], some 1, none⟩
    ⟨[((pys "0", pys "0", pys "0"), ⟨pys "0", pys "0", pys "0", 1⟩),
      ((pys "1", pys "0", pys "0"), ⟨pys "1", pys "0", pys "0", 2⟩)], some 2, none⟩
    ⟨[((pys "0", pys "0", pys "0"), ⟨pys "0", pys "0", pys "0", 1⟩),
      ((pys "1", pys "0", pys "0"), ⟨pys "1", pys "0", pys "0", 2⟩)], some 2, none⟩
    ⟨[((pys "0", pys "0", pys "0"), ⟨pys "0", pys "0", pys "0", 1⟩),
      ((pys "1", pys "0", pys "0"), ⟨pys "1", pys "0", pys "0", 2⟩),
      ((pys "2", pys "0", pys "0"), ⟨pys "2", pys "0", pys "0", 3⟩)], some 3, none⟩
    (pys "0\n") (pys "0\n") (pys "0\n") (pys "1\n") (pys "0\n") (pys "0\n")
    (pys "0\n") (pys "0\n") (pys "0\n") (pys "2\n") (pys "0\n") (pys "0\n")
    ⟨pys "0", pys "0", pys "0", 1⟩ ⟨pys "1", pys "0", pys "0", 2⟩
    ⟨pys "0", pys "0", pys "0", 1⟩ ⟨pys "2", pys "0", pys "0", 3⟩
    (by decide) (by decide) (by decide) (by decide)).1
  rw [h]
  decide

/-- Claim C2 fails on the code: invalidating a layer that holds one 4-point
face decrements the point id counter by 1 (the number of faces: iterating the
one-field `ThreeDFace` namedtuple yields the points tuple itself, so
`chain.from_iterable(layer.faces)` has one element per face), not by the total
point count 4 across the layer's faces as the claim states.  The layer itself
is removed, and the line/point terms of the decrement are as claimed. -/
theorem remove_invalid_layer_undercounts_face_points :
    remove_invalid_layer (pys "Slab H20") [(pys "Slab H20", quadFaceLayer)] (some 5)
      = ([], some 4)
    ∧ (quadFaceLayer.faces.map (fun fc => fc.points.length)).sum = 4
    ∧ (remove_invalid_layer (pys "Slab H20") [(pys "Slab H20", quadFaceLayer)]
        (some 5)).2
      ≠ some (5 - ((quadFaceLayer.faces.map (fun fc => fc.points.length)).sum : Int)) := by
  decide

/-- Claim C4 fails on the code: an LWPOLYLINE that declares 2 vertices but whose
stream ends after one vertex raises a `TypeError` (`Point(point_factory(x, y,
z))` passes a `Point` as the lone positional argument, leaving `y` and `z`
missing) instead of returning the single read vertex; only when the stream
ends before any vertex is read does it return a short (empty) polyline
without error. -/
theorem parse_LWPOLYLINE_raises_on_read_vertex :
    parse_LWPOLYLINE [pys " 90\n", pys "2\n", pys "1.0\n", pys " 20\n", pys "2.0\n"]
      ⟨[], none, none⟩ = none
    ∧ parse_LWPOLYLINE [pys " 90\n", pys "2\n"] ⟨[], none, none⟩
      = some (⟨[]⟩, ⟨[], none, none⟩, []) := by
  decide

end Armatures

namespace Armatures

/-- Helper: `splitFirst` finds nothing exactly when the separator never occurs
(for a non-empty separator). -/
theorem splitFirst_eq_none_iff (sep : PyStr) (hsep : sep ≠ []) (s : PyStr) :
    splitFirst sep s = none ↔ containsSub sep s = false := by
  induction s with
  | nil =>
    cases sep with
    | nil => exact absurd rfl hsep
    | cons c cs => simp [splitFirst, containsSub]
  | cons c rest ih =>
    cases hl : leadsWith sep (c :: rest) with
    | true => simp [splitFirst, containsSub, hl]
    | false =>
      simp only [splitFirst, containsSub, hl, Bool.false_or, if_neg, Bool.false_eq_true,
        not_false_iff]
      constructor
      · intro h0
        cases hsf : splitFirst sep rest with
        | none => exact ih.mp hsf
        | some ba =>
          obtain ⟨b, a⟩ := ba
          rw [hsf] at h0
          simp at h0
      · intro h0
        rw [ih.mpr h0]

/-- Helper: repeated splitting always yields at least one piece. -/
theorem splitOnSubFuel_ne_nil (sep : PyStr) (fuel : Nat) (s : PyStr) :
    splitOnSubFuel sep fuel s ≠ [] := by
  cases fuel with
  | zero => simp [splitOnSubFuel]
  | succ n =>
    cases hsf : splitFirst sep s with
    | none => simp [splitOnSubFuel, hsf]
    | some ba => simp [splitOnSubFuel, hsf]

/-- Helper: with no occurrence of the separator, splitting returns the whole
string, whatever the fuel. -/
theorem splitOnSubFuel_of_none (sep : PyStr) (fuel : Nat) (s : PyStr)
    (h : splitFirst sep s = none) : splitOnSubFuel sep fuel s = [s] := by
  cases fuel with
  | zero => rfl
  | succ n => simp [splitOnSubFuel, h]

/-- Helper: `splitOnSub` yields a single piece exactly when the separator is
absent. -/
theorem splitOnSub_single_iff (sep : PyStr) (hsep : sep ≠ []) (s : PyStr) :
    (∃ p, splitOnSub sep s = [p]) ↔ containsSub sep s = false := by
  constructor
  · rintro ⟨p, hp⟩
    rw [← splitFirst_eq_none_iff sep hsep]
    cases hsf : splitFirst sep s with
    | none => rfl
    | some ba =>
      obtain ⟨b, a⟩ := ba
      unfold splitOnSub at hp
      rw [show s.length + 1 = Nat.succ s.length from rfl] at hp
      simp only [splitOnSubFuel, hsf] at hp
      obtain ⟨-, htail⟩ := List.cons.injEq .. ▸ hp
      exact absurd htail (splitOnSubFuel_ne_nil sep _ a)
  · intro h
    refine ⟨s, ?_⟩
    unfold splitOnSub
    exact splitOnSubFuel_of_none sep _ s ((splitFirst_eq_none_iff sep hsep s).mpr h)

/-- Helper: the single-digit code strings compare under Python `<=` exactly as
the numeric `DOF_MAP` codes do. -/
theorem dof_pair_le : ∀ a ∈ DOF_VALUES, ∀ b ∈ DOF_VALUES,
    pyStrLe (dofCodeStr a) (dofCodeStr b) = decide (DOF_MAP a ≤ DOF_MAP b) := by
  decide

/-- Helper: on token lists drawn from `DOF_VALUES`, the source's string-level
adjacency check agrees with the numeric non-decreasing-codes check. -/
theorem allAdjacentLe_eq_nonDecCodes :
    ∀ ts : List PyStr, (∀ t ∈ ts, t ∈ DOF_VALUES) →
      allAdjacentLe (ts.map dofCodeStr) = nonDecCodes ts
  | [] => fun _ => rfl
  | [_] => fun _ => rfl
  | a :: b :: rest => fun h => by
    have hab := dof_pair_le a (h a (by simp)) b (h b (by simp))
    have ih := allAdjacentLe_eq_nonDecCodes (b :: rest)
      (fun t ht => h t (List.mem_cons_of_mem a ht))
    rw [List.map_cons] at ih
    simp only [List.map_cons, allAdjacentLe, nonDecCodes, hab, ih]

/-- Helper: every extracted DOF token is a member of `DOF_VALUES`. -/
theorem pointToks_mem (name : PyStr) : ∀ t ∈ pointToks name, t ∈ DOF_VALUES := by
  intro t ht
  unfold pointToks at ht
  cases hsp : splitOnSub (pys "DOF ") name with
  | nil => rw [hsp] at ht; cases ht
  | cons p rest =>
    cases rest with
    | nil => rw [hsp] at ht; cases ht
    | cons seg rest2 =>
      rw [hsp] at ht
      have := List.of_mem_filter ht
      simpa using this

/-- Claim C6 (amended): a POINT layer name is accepted (non-empty attribute
list) exactly when it contains the `"DOF "` marker, the in-set tokens after it
are non-empty, and their `DOF_MAP` codes are non-decreasing; tokens outside
the set are discarded before the order check (see C10), and the returned
attributes are the ordered lowercase in-set token list. -/
theorem parse_layer_name_point_characterization (name : PyStr) :
    ((∃ a, parse_layer_name (pys "POINT") name = some a ∧ a ≠ [])
      ↔ containsSub (pys "DOF ") name = true ∧ pointToks name ≠ []
        ∧ nonDecCodes (pointToks name) = true)
    ∧ (∀ a, parse_layer_name (pys "POINT") name = some a → a ≠ []
        → a = (pointToks name).map Attr.str) := by
  have hsep : (pys "DOF ") ≠ [] := by decide
  have hpn : ∀ r, splitOnSub (pys "DOF ") name = r →
      parse_layer_name (pys "POINT") name
        = (match r with
          | _ :: seg :: _ =>
            let dofs := ((splitOnChar ' ' (pyLower seg)).map strip).filter
              (fun d => decide (d ∈ DOF_VALUES))
            if allAdjacentLe (dofs.map dofCodeStr) then some (dofs.map Attr.str)
            else some []
          | _ => some []) := by
    intro r hr
    unfold parse_layer_name
    rw [if_neg (by decide), if_neg (by decide), if_pos rfl, hr]
  have hpt : ∀ r, splitOnSub (pys "DOF ") name = r →
      pointToks name
        = (match r with
          | _ :: seg :: _ =>
            ((splitOnChar ' ' (pyLower seg)).map strip).filter
              (fun d => decide (d ∈ DOF_VALUES))
          | _ => []) := by
    intro r hr
    unfold pointToks
    rw [hr]
  cases hshape : splitOnSub (pys "DOF ") name with
  | nil => exact absurd hshape (by unfold splitOnSub; exact splitOnSubFuel_ne_nil _ _ _)
  | cons p rest =>
    cases rest with
    | nil =>
      have hcs : containsSub (pys "DOF ") name = false :=
        (splitOnSub_single_iff _ hsep name).mp ⟨p, hshape⟩
      have hpn' : parse_layer_name (pys "POINT") name = some [] := hpn _ hshape
      have hpt' : pointToks name = [] := hpt _ hshape
      rw [hpn', hpt']
      constructor
      · constructor
        · rintro ⟨a, ha, hne⟩
          exact absurd (Option.some.inj ha).symm hne
        · rintro ⟨h0, -⟩
          rw [hcs] at h0
          cases h0
      · intro a ha hne
        exact absurd (Option.some.inj ha).symm hne
    | cons seg rest2 =>
      have hcs : containsSub (pys "DOF ") name = true := by
        cases hc : containsSub (pys "DOF ") name with
        | true => rfl
        | false =>
          obtain ⟨q, hq⟩ := (splitOnSub_single_iff _ hsep name).mpr hc
          rw [hshape] at hq
          simp at hq
      set ks : List PyStr := ((splitOnChar ' ' (pyLower seg)).map strip).filter
        (fun d => decide (d ∈ DOF_VALUES)) with hks
      have hmem : ∀ t ∈ ks, t ∈ DOF_VALUES := by
        intro t ht
        rw [hks] at ht
        have := List.of_mem_filter ht
        simpa using this
      have hEq := allAdjacentLe_eq_nonDecCodes ks hmem
      have hpn0 : parse_layer_name (pys "POINT") name
          = if allAdjacentLe (List.map dofCodeStr ks) = true
            then some (List.map Attr.str ks) else some [] := hpn _ hshape
      rw [hEq] at hpn0
      have hpt0 : pointToks name = ks := hpt _ hshape
      rw [hpn0, hpt0]
      by_cases hnd : nonDecCodes ks = true
      · rw [if_pos hnd]
        constructor
        · constructor
          · rintro ⟨a, ha, hne⟩
            have haa := Option.some.inj ha
            refine ⟨hcs, ?_, hnd⟩
            intro h0
            rw [h0] at haa
            exact hne (haa ▸ rfl)
          · rintro ⟨-, hne, -⟩
            refine ⟨List.map Attr.str ks, rfl, ?_⟩
            intro h0
            exact hne (List.map_eq_nil_iff.mp h0)
        · intro a ha _
          exact (Option.some.inj ha).symm
      · rw [if_neg hnd]
        constructor
        · constructor
          · rintro ⟨a, ha, hne⟩
            exact absurd (Option.some.inj ha).symm hne
          · rintro ⟨-, -, h0⟩
            exact absurd h0 hnd
        · intro a ha hne
          exact absurd (Option.some.inj ha).symm hne

/-- Witness for C6 (amended) at the spec's two examples. -/
theorem parse_layer_name_point_characterization_witness :
    parse_layer_name (pys "POINT") (pys "Support DOF x y z")
      = some ((pointToks (pys "Support DOF x y z")).map Attr.str)
    ∧ (∃ a, parse_layer_name (pys "POINT") (pys "Support DOF x y z") = some a ∧ a ≠ [])
    ∧ parse_layer_name (pys "POINT") (pys "Support DOF z x") = some [] := by
  refine ⟨?_, ?_, by decide⟩
  · have h := (parse_layer_name_point_characterization (pys "Support DOF x y z")).2
      [Attr.str (pys "x"), Attr.str (pys "y"), Attr.str (pys "z")] (by decide) (by decide)
    rw [← h]
    decide
  · exact (parse_layer_name_point_characterization (pys "Support DOF x y z")).1.mpr
      ⟨by decide, by decide, by decide⟩

/-- Claim C6 as stated fails on the code: `"Support DOF x q y"` is accepted
with attributes `["x", "y"]` although its post-marker tokens are not all drawn
from the DOF set, so acceptance is not equivalent to the claim's condition. -/
theorem parse_layer_name_point_claim_counterexample :
    parse_layer_name (pys "POINT") (pys "Support DOF x q y")
      = some [Attr.str (pys "x"), Attr.str (pys "y")]
    ∧ claimC6Accepts (pys "Support DOF x q y") = false := by
  decide

/-- Helper: with fuel at least the string length, the head of the findall
result is the first regex match. -/
theorem findAllFuel_head (letter : Char) :
    ∀ fuel s, List.length s ≤ fuel →
      (findAllFuel letter fuel s).head? = firstLN letter s := by
  intro fuel
  induction fuel with
  | zero =>
    intro s hs
    have h0 : s = [] := List.length_eq_zero.mp (Nat.le_zero.mp hs)
    subst h0
    rfl
  | succ n ih =>
    intro s hs
    cases s with
    | nil => rfl
    | cons c rest =>
      by_cases hc : c = letter ∧ rest.takeWhile Char.isDigit ≠ []
      · simp [findAllFuel, firstLN, hc]
      · have hlen : rest.length ≤ n := by simpa using hs
        simp only [findAllFuel, firstLN, if_neg hc]
        exact ih rest hlen

/-- Helper: no first match exactly when `hasLN` is false. -/
theorem firstLN_eq_none_iff (letter : Char) (s : PyStr) :
    firstLN letter s = none ↔ hasLN letter s = false := by
  induction s with
  | nil => simp [firstLN, hasLN]
  | cons c rest ih =>
    by_cases hc : c = letter ∧ rest.takeWhile Char.isDigit ≠ []
    · simp only [firstLN, hasLN, if_pos hc]
      simp
    · simp only [firstLN, hasLN, if_neg hc]
      exact ih

/-- Claim C7: for every LINE-layer name, `parse_layer_name` returns the numeric
pair `[B-value, H-value]` (the digits of the first `B\d+` and `H\d+` matches)
exactly when the name contains both matches, returns the invalid result `[]`
when either is missing — and the caller then discards the entity:
`"Beam B30 H50"` yields `[30.0, 50.0]`, while a LINE on layer `"Beam B30"`
leaves the parse result without any layer. -/
theorem parse_layer_name_line_B_H (name : PyStr) :
    (∀ bm hm, firstLN 'B' name = some bm → firstLN 'H' name = some hm →
      parse_layer_name (pys "LINE") name
        = some [Attr.num (natOfDigits (bm.drop 1) : ℚ),
                Attr.num (natOfDigits (hm.drop 1) : ℚ)])
    ∧ (hasLN 'B' name = false ∨ hasLN 'H' name = false →
        parse_layer_name (pys "LINE") name = some [])
    ∧ ((∃ a, parse_layer_name (pys "LINE") name = some a ∧ a ≠ [])
        ↔ hasLN 'B' name = true ∧ hasLN 'H' name = true)
    ∧ parse_layer_name (pys "LINE") (pys "Beam B30 H50")
        = some [Attr.num 30, Attr.num 50]
    ∧ parse_entities [pys "  0\n", pys "LINE\n", pys "  8\n", pys "Beam B30\n"]
        ⟨[], none, none⟩ = some ([], ⟨[], none, none⟩) := by
  have hB : (findAllLN 'B' name).head? = firstLN 'B' name :=
    findAllFuel_head 'B' name.length name le_rfl
  have hH : (findAllLN 'H' name).head? = firstLN 'H' name :=
    findAllFuel_head 'H' name.length name le_rfl
  have hline : ∀ r1 r2, findAllLN 'B' name = r1 → findAllLN 'H' name = r2 →
      parse_layer_name (pys "LINE") name
        = (match r1, r2 with
          | b0 :: _, h0 :: _ =>
            some [Attr.num (natOfDigits (b0.drop 1) : ℚ),
                  Attr.num (natOfDigits (h0.drop 1) : ℚ)]
          | _, _ => some []) := by
    intro r1 r2 h1 h2
    unfold parse_layer_name
    rw [if_pos rfl, h1, h2]
  have c1 : ∀ bm hm, firstLN 'B' name = some bm → firstLN 'H' name = some hm →
      parse_layer_name (pys "LINE") name
        = some [Attr.num (natOfDigits (bm.drop 1) : ℚ),
                Attr.num (natOfDigits (hm.drop 1) : ℚ)] := by
    intro bm hm h1 h2
    cases hfb : findAllLN 'B' name with
    | nil => rw [hfb] at hB; rw [h1] at hB; cases hB
    | cons b0 t1 =>
      cases hfh : findAllLN 'H' name with
      | nil => rw [hfh] at hH; rw [h2] at hH; cases hH
      | cons h0 t2 =>
        rw [hfb] at hB; rw [h1] at hB
        rw [hfh] at hH; rw [h2] at hH
        have hb0 : b0 = bm := by simpa using hB
        have hh0 : h0 = hm := by simpa using hH
        subst hb0; subst hh0
        exact hline _ _ hfb hfh
  have c2 : hasLN 'B' name = false ∨ hasLN 'H' name = false →
      parse_layer_name (pys "LINE") name = some [] := by
    intro h
    cases h with
    | inl hb =>
      have hfn : firstLN 'B' name = none := (firstLN_eq_none_iff 'B' name).mpr hb
      cases hfb : findAllLN 'B' name with
      | nil => exact hline _ _ hfb rfl
      | cons b0 t1 =>
        rw [hfb] at hB; rw [hfn] at hB; cases hB
    | inr hh =>
      have hfn : firstLN 'H' name = none := (firstLN_eq_none_iff 'H' name).mpr hh
      cases hfh : findAllLN 'H' name with
      | nil =>
        cases hfb : findAllLN 'B' name with
        | nil => exact hline _ _ hfb hfh
        | cons b0 t1 => exact hline _ _ hfb hfh
      | cons h0 t2 =>
        rw [hfh] at hH; rw [hfn] at hH; cases hH
  refine ⟨c1, c2, ?_, by decide, by decide⟩
  constructor
  · rintro ⟨a, ha, hne⟩
    cases hb : hasLN 'B' name with
    | false =>
      rw [c2 (Or.inl hb)] at ha
      exact absurd (Option.some.inj ha).symm hne
    | true =>
      cases hh : hasLN 'H' name with
      | false =>
        rw [c2 (Or.inr hh)] at ha
        exact absurd (Option.some.inj ha).symm hne
      | true => exact ⟨rfl, rfl⟩
  · rintro ⟨hb, hh⟩
    have hb' : firstLN 'B' name ≠ none := by
      intro h0
      have h1 := (firstLN_eq_none_iff 'B' name).mp h0
      rw [hb] at h1
      cases h1
    have hh' : firstLN 'H' name ≠ none := by
      intro h0
      have h1 := (firstLN_eq_none_iff 'H' name).mp h0
      rw [hh] at h1
      cases h1
    obtain ⟨bm, hbm⟩ := Option.ne_none_iff_exists'.mp hb'
    obtain ⟨hm, hhm⟩ := Option.ne_none_iff_exists'.mp hh'
    exact ⟨_, c1 bm hm hbm hhm, by simp⟩

/-- Witness for C7 at the spec's example name. -/
theorem parse_layer_name_line_B_H_witness :
    firstLN 'B' (pys "Beam B30 H50") = some (pys "B30")
    ∧ firstLN 'H' (pys "Beam B30 H50") = some (pys "H50")
    ∧ parse_layer_name (pys "LINE") (pys "Beam B30 H50")
        = some [Attr.num (natOfDigits (pys "30") : ℚ),
                Attr.num (natOfDigits (pys "50") : ℚ)] := by
  refine ⟨by decide, by decide, ?_⟩
  have h := (parse_layer_name_line_B_H (pys "Beam B30 H50")).1 (pys "B30") (pys "H50")
    (by decide) (by decide)
  rw [h]
  decide

end Armatures

namespace Armatures

/-- Helper: lowercasing distributes over concatenation. -/
theorem pyLower_append (a b : PyStr) : pyLower (a ++ b) = pyLower a ++ pyLower b :=
  List.map_append _ a b

/-- Helper: lowercasing distributes over a space-join (space is unchanged by
`Char.toLower`). -/
theorem pyLower_joinChar : ∀ ts : List PyStr,
    pyLower (joinChar ' ' ts) = joinChar ' ' (ts.map pyLower)
  | [] => rfl
  | [_] => rfl
  | t :: u :: rest => by
    have ih := pyLower_joinChar (u :: rest)
    show pyLower (t ++ ' ' :: joinChar ' ' (u :: rest))
      = pyLower t ++ ' ' :: joinChar ' ' ((u :: rest).map pyLower)
    rw [← ih, pyLower_append]
    rfl

/-- Helper: splitting a string that never holds the separator yields one piece. -/
theorem splitOnChar_no_sep (sep : Char) : ∀ s : PyStr, sep ∉ s →
    splitOnChar sep s = [s] := by
  intro s
  induction s with
  | nil => intro _; rfl
  | cons c rest ih =>
    intro h
    have hc : ¬ c = sep := fun e => h (e ▸ List.mem_cons_self c rest)
    have hr := ih (fun e => h (List.mem_cons_of_mem c e))
    simp [splitOnChar, hr, hc]

/-- Helper: `splitOnChar` always yields at least one piece. -/
theorem splitOnChar_ne_nil (sep : Char) (s : PyStr) : splitOnChar sep s ≠ [] := by
  cases s with
  | nil => simp [splitOnChar]
  | cons c rest =>
    cases h : splitOnChar sep rest with
    | nil => simp [splitOnChar, h]
    | cons x xs =>
      simp only [splitOnChar, h]
      split <;> simp

/-- Helper: splitting past a separator occurrence after a separator-free
prefix peels the prefix off. -/
theorem splitOnChar_append_sep (sep : Char) : ∀ (t r : PyStr), sep ∉ t →
    splitOnChar sep (t ++ sep :: r) = t :: splitOnChar sep r := by
  intro t
  induction t with
  | nil =>
    intro r _
    cases hsr : splitOnChar sep r with
    | nil => exact absurd hsr (splitOnChar_ne_nil sep r)
    | cons h t0 => simp [splitOnChar, hsr]
  | cons c t' ih =>
    intro r h
    have hc : ¬ c = sep := fun e => h (e ▸ List.mem_cons_self c t')
    have hr := ih r (fun e => h (List.mem_cons_of_mem c e))
    simp [splitOnChar, hr, hc]

/-- Helper: splitting a space-join of space-free pieces recovers the pieces. -/
theorem splitOnChar_joinChar (sep : Char) : ∀ ls : List PyStr,
    (∀ l ∈ ls, sep ∉ l) → ls ≠ [] → splitOnChar sep (joinChar sep ls) = ls
  | [] => fun _ h => absurd rfl h
  | [t] => fun h _ => splitOnChar_no_sep sep t (h t (by simp))
  | t :: u :: rest => fun h _ => by
    have ih := splitOnChar_joinChar sep (u :: rest)
      (fun l hl => h l (List.mem_cons_of_mem t hl)) (by simp)
    show splitOnChar sep (t ++ sep :: joinChar sep (u :: rest)) = t :: u :: rest
    rw [splitOnChar_append_sep sep t _ (h t (by simp)), ih]

/-- Helper: a string leads with itself followed by anything. -/
theorem leadsWith_append_self : ∀ (p s : PyStr), leadsWith p (p ++ s) = true
  | [], _ => rfl
  | c :: ps, s => by simp [leadsWith, leadsWith_append_self ps s]

/-- Helper: the first `"DOF "` occurrence in `"Support DOF " ++ J` splits off
exactly the prefix `"Support "`. -/
theorem splitFirst_support (J : PyStr) :
    splitFirst (pys "DOF ") (pys "Support DOF " ++ J) = some (pys "Support ", J) := rfl

/-- Helper: `splitOnSubFuel` at a successor of fuel takes one splitting step. -/
theorem splitOnSubFuel_succ (sep : PyStr) (fuel : Nat) (s : PyStr) :
    splitOnSubFuel sep (fuel + 1) s
      = (match splitFirst sep s with
        | none => [s]
        | some (b, a) => b :: splitOnSubFuel sep fuel a) := rfl

/-- Helper: reduction of the POINT branch of `parse_layer_name` once the split
of the layer name on the marker is known to have at least two pieces. -/
theorem parse_layer_name_point_eq (name p seg : PyStr) (rest : List PyStr)
    (h : splitOnSub (pys "DOF ") name = p :: seg :: rest) :
    parse_layer_name (pys "POINT") name
      = if allAdjacentLe ((((splitOnChar ' ' (pyLower seg)).map strip).filter
            (fun d => decide (d ∈ DOF_VALUES))).map dofCodeStr) = true
        then some ((((splitOnChar ' ' (pyLower seg)).map strip).filter
            (fun d => decide (d ∈ DOF_VALUES))).map Attr.str)
        else some [] := by
  unfold parse_layer_name
  rw [if_neg (by decide), if_neg (by decide), if_pos rfl, h]

/-- Claim C10: in a POINT layer name `"Support DOF " ++ join(ts)`, any token
not in the DOF set (after lowercasing and stripping) is silently discarded
before the non-decreasing-order validation — the result is computed from the
filtered token list alone; e.g. `"Support DOF x q y"` yields `["x", "y"]`
rather than being rejected. -/
theorem parse_layer_name_point_drops_foreign (ts : List PyStr)
    (hm : containsSub (pys "DOF ") (joinChar ' ' ts) = false)
    (hsl : ∀ t ∈ ts, ' ' ∉ pyLower t) :
    parse_layer_name (pys "POINT") (pys "Support DOF " ++ joinChar ' ' ts)
      = if allAdjacentLe (((ts.map (fun t => strip (pyLower t))).filter
            (fun d => decide (d ∈ DOF_VALUES))).map dofCodeStr) = true
        then some (((ts.map (fun t => strip (pyLower t))).filter
            (fun d => decide (d ∈ DOF_VALUES))).map Attr.str)
        else some [] := by
  have hJn : splitFirst (pys "DOF ") (joinChar ' ' ts) = none :=
    (splitFirst_eq_none_iff _ (by decide) _).mpr hm
  have hsplit : splitOnSub (pys "DOF ") (pys "Support DOF " ++ joinChar ' ' ts)
      = [pys "Support ", joinChar ' ' ts] := by
    unfold splitOnSub
    rw [splitOnSubFuel_succ, splitFirst_support]
    show pys "Support " :: splitOnSubFuel (pys "DOF ")
        (List.length (pys "Support DOF " ++ joinChar ' ' ts)) (joinChar ' ' ts)
      = [pys "Support ", joinChar ' ' ts]
    rw [splitOnSubFuel_of_none _ _ _ hJn]
  rw [parse_layer_name_point_eq _ (pys "Support ") (joinChar ' ' ts) [] hsplit]
  have htoks : ((splitOnChar ' ' (pyLower (joinChar ' ' ts))).map strip).filter
      (fun d => decide (d ∈ DOF_VALUES))
      = (ts.map (fun t => strip (pyLower t))).filter
        (fun d => decide (d ∈ DOF_VALUES)) := by
    cases ts with
    | nil => decide
    | cons t0 ts' =>
      rw [pyLower_joinChar,
        splitOnChar_joinChar ' ' ((t0 :: ts').map pyLower)
          (by
            intro l hl
            obtain ⟨t, ht, rfl⟩ := List.mem_map.mp hl
            exact hsl t ht)
          (by simp),
        List.map_map]
      rfl
  rw [htoks]

/-- Witness for C10 at the implicit claim's example. -/
theorem parse_layer_name_point_drops_foreign_witness :
    containsSub (pys "DOF ") (joinChar ' ' [pys "x", pys "q", pys "y"]) = false
    ∧ parse_layer_name (pys "POINT") (pys "Support DOF x q y")
        = some [Attr.str (pys "x"), Attr.str (pys "y")] := by
  refine ⟨by decide, ?_⟩
  have h := parse_layer_name_point_drops_foreign [pys "x", pys "q", pys "y"]
    (by decide) (by decide)
  have e : pys "Support DOF x q y"
      = pys "Support DOF " ++ joinChar ' ' [pys "x", pys "q", pys "y"] := by decide
  rw [e, h]
  decide

/-- Claim C3 (amended): `parse_layer_name` has no LWPOLYLINE branch and falls
off the end, returning Python `None` for every layer name; `parse_entities`
treats that falsy result as an invalid layer, so no LWPOLYLINE layer is ever
created and the polyline entity is discarded. -/
theorem parse_layer_name_lwpolyline_none (name : PyStr) :
    parse_layer_name (pys "LWPOLYLINE") name = none := by
  unfold parse_layer_name
  rw [if_neg (by decide), if_neg (by decide), if_neg (by decide)]

/-- Claim C3 as stated fails on the code: parsing a lone LWPOLYLINE entity on
layer `"PolyLayer"` yields a result with no layer at all — the layer is not
created and the polyline is not retained. -/
theorem parse_entities_drops_lwpolyline :
    parse_entities [pys "  0\n", pys "LWPOLYLINE\n", pys "  8\n", pys "PolyLayer\n"]
      ⟨[], none, none⟩ = some ([], ⟨[], none, none⟩)
    ∧ parse_layer_name (pys "LWPOLYLINE") (pys "PolyLayer") = none := by
  decide

/-- Claim C8: in the exporter's entities section (section 1), every `Line` of
every layer emits the record `5 <layer-id> <a-id> <b-id>/`, and every `Face`
emits a record tagged `42` when it stores exactly 3 points and `44` otherwise,
followed by the ids of its points in stored order. -/
theorem entitiesSection_records (layers : List Layer) (L : Layer) (hL : L ∈ layers) :
    (∀ l ∈ L.lines,
      (pys "5 " ++ intToStr L.id ++ pys " " ++ intToStr l.a.id ++ pys " "
        ++ intToStr l.b.id ++ pys "/\n") ∈ entitiesSection layers)
    ∧ (∀ fc ∈ L.faces,
      ((if fc.points.length = 3 then pys "42 " else pys "44 ")
        ++ intToStr L.id ++ pys " "
        ++ joinChar ' ' (fc.points.map (fun p => intToStr p.id))
        ++ pys "/\n") ∈ entitiesSection layers) := by
  constructor
  · intro l hl
    unfold entitiesSection
    rw [List.mem_flatten]
    refine ⟨_, List.mem_map_of_mem _ hL, ?_⟩
    apply List.mem_append_left
    have h := List.mem_map_of_mem (lineRecord L.id) hl
    simpa [lineRecord] using h
  · intro fc hfc
    unfold entitiesSection
    rw [List.mem_flatten]
    refine ⟨_, List.mem_map_of_mem _ hL, ?_⟩
    apply List.mem_append_right
    have h := List.mem_map_of_mem (faceRecord L.id) hfc
    by_cases h3 : fc.points.length = 3
    · simpa [faceRecord, h3] using h
    · simpa [faceRecord, h3] using h

/-- Witness for C8 on a concrete layer holding one line, one triangle and one
quadrilateral. -/
theorem entitiesSection_records_witness :
    (pys "5 7 1 2/\n") ∈ entitiesSection [exLayer]
    ∧ (pys "42 7 1 2 3/\n") ∈ entitiesSection [exLayer]
    ∧ (pys "44 7 1 2 4 3/\n") ∈ entitiesSection [exLayer] := by
  have hrec := entitiesSection_records [exLayer] exLayer (by simp)
  refine ⟨?_, ?_, ?_⟩
  · have h := hrec.1 exLine (by decide)
    have e : pys "5 7 1 2/\n"
        = pys "5 " ++ intToStr exLayer.id ++ pys " " ++ intToStr exLine.a.id
          ++ pys " " ++ intToStr exLine.b.id ++ pys "/\n" := by decide
    rw [e]
    exact h
  · have h := hrec.2 exTri (by decide)
    have e : pys "42 7 1 2 3/\n"
        = (if exTri.points.length = 3 then pys "42 " else pys "44 ")
          ++ intToStr exLayer.id ++ pys " "
          ++ joinChar ' ' (exTri.points.map (fun p => intToStr p.id))
          ++ pys "/\n" := by decide
    rw [e]
    exact h
  · have h := hrec.2 exQuad (by decide)
    have e : pys "44 7 1 2 4 3/\n"
        = (if exQuad.points.length = 3 then pys "42 " else pys "44 ")
          ++ intToStr exLayer.id ++ pys " "
          ++ joinChar ' ' (exQuad.points.map (fun p => intToStr p.id))
          ++ pys "/\n" := by decide
    rw [e]
    exact h

end Armatures
